import Mathlib

/-!
Shallow embedding of `src/analysis/statistics.py` (redsm5): a one-shot batch
tool that loads a post table and an annotation table, aggregates the
annotations into per-post confirmed-symptom sets and explanation lists, and
prints corpus statistics and a per-symptom post-coverage ranking.

Modelling conventions:
* Python `dict` / `defaultdict` → insertion-ordered association lists
  (`Dict`); `defaultdict.__getitem__` inserts its default on a missing key,
  so it is modelled as state passing (`dGet`).
* Python exceptions (`KeyError`, `ZeroDivisionError`, `statistics` errors)
  → `Except String`.
* `statistics.stdev` computes the Bessel-corrected sample variance with
  exact rational arithmetic and takes a float square root; it is modelled
  with `Real.sqrt` over the exact rational variance.
* CSV parsing is out of scope: loaders take the row lists the `csv` module
  would produce.
-/

namespace RedSM5

/-- The BDI item → DSM-5 category table (`BDI_DSM5_MAPPING` in the source). -/
def BDI_DSM5_MAPPING : List (Nat × String) := [
  (1, "DEPRESSED_MOOD"),
  (2, "DEPRESSED_MOOD"),
  (3, "WORTHLESSNESS"),
  (4, "ANHEDONIA"),
  (5, "WORTHLESSNESS"),
  (6, "WORTHLESSNESS"),
  (7, "WORTHLESSNESS"),
  (8, "WORTHLESSNESS"),
  (9, "SUICIDAL_THOUGHTS"),
  (10, "DEPRESSED_MOOD"),
  (11, "PSYCHOMOTOR"),
  (12, "ANHEDONIA"),
  (13, "COGNITIVE_ISSUES"),
  (14, "WORTHLESSNESS"),
  (15, "FATIGUE"),
  (16, "SLEEP_ISSUES"),
  (17, "DEPRESSED_MOOD"),
  (18, "APPETITE_CHANGE"),
  (19, "COGNITIVE_ISSUES"),
  (20, "FATIGUE"),
  (21, "ANHEDONIA")]

/-- `DSM5_SYMPTOM_NAMES = set(BDI_DSM5_MAPPING.values())`; the source only
ever tests membership in this set. -/
def DSM5_SYMPTOM_NAMES : List String := (BDI_DSM5_MAPPING.map Prod.snd).dedup

/-- An insertion-ordered dictionary, the model of a Python `dict` /
`defaultdict` / `Counter` (Python dicts preserve insertion order). -/
abbrev Dict (β : Type) := List (String × β)

/-- `d.get(k)`-style lookup: the stored value, or `none` for a missing key. -/
def dictFind? {β : Type} (d : Dict β) (k : String) : Option β :=
  match d with
  | [] => none
  | p :: ps => if p.1 = k then some p.2 else dictFind? ps k

/-- The value a `defaultdict` read yields: the stored value or the default. -/
def dLookup {β : Type} (d : Dict β) (k : String) (dflt : β) : β :=
  (dictFind? d k).getD dflt

/-- `d[k] = v` on a Python dict: overwrite in place (position kept), or
append a fresh key at the end. -/
def dictSet {β : Type} (d : Dict β) (k : String) (v : β) : Dict β :=
  match d with
  | [] => [(k, v)]
  | p :: ps => if p.1 = k then (k, v) :: ps else p :: dictSet ps k v

/-- `defaultdict.__getitem__`: returns the stored value or the default, and
inserts the default when the key was absent — the mutation Python performs
on a read. -/
def dGet {β : Type} (d : Dict β) (k : String) (dflt : β) : β × Dict β :=
  match dictFind? d k with
  | some v => (v, d)
  | none => (dflt, d ++ [(k, dflt)])

/-- Read-modify-write on a `defaultdict` entry, e.g.
`post_to_symptoms[post_id].add(symptom)`: apply `f` to the stored value
(or to the default for a missing key, appending the result). -/
def dModify {β : Type} (d : Dict β) (k : String) (dflt : β) (f : β → β) :
    Dict β :=
  match d with
  | [] => [(k, f dflt)]
  | p :: ps => if p.1 = k then (p.1, f p.2) :: ps else p :: dModify ps k dflt f

/-- `set.add` on the (insertion-ordered) model of a Python set: a no-op when
the element is already present. -/
def setAdd (s : List String) (x : String) : List String :=
  if x ∈ s then s else s ++ [x]

/-- `load_full_posts`: fold the post rows `(post_id, text)` into a dict;
a repeated identifier silently overwrites (last write wins). -/
def load_full_posts (rows : List (String × String)) : Dict String :=
  rows.foldl (fun posts row => dictSet posts row.1 row.2) []

/-- The two derived groupings produced by `load_annotations`. -/
structure Groupings where
  post_to_symptoms : Dict (List String)
  post_to_all_annotations : Dict (List (String × String))
deriving DecidableEq, Repr

/-- The body of the `load_annotations` row loop, for one row
`(post_id, DSM5_symptom, status)`: status `"1"` with a taxonomy-valid
symptom adds to the confirmed-symptom set; status `"0"` or `"1"` appends
the `(symptom, status)` pair to the explanation list. -/
def processRow (g : Groupings) (row : String × String × String) : Groupings :=
  let post_id := row.1
  let symptom := row.2.1
  let status := row.2.2
  let g1 :=
    if status = "1" ∧ symptom ∈ DSM5_SYMPTOM_NAMES then
      Groupings.mk (dModify g.post_to_symptoms post_id [] (fun s => setAdd s symptom))
        g.post_to_all_annotations
    else g
  if status = "0" ∨ status = "1" then
    Groupings.mk g1.post_to_symptoms
      (dModify g1.post_to_all_annotations post_id [] (fun l => l ++ [(symptom, status)]))
  else g1

/-- `load_annotations`: a single pass over the annotation rows building both
groupings (both start as empty defaultdicts). -/
def load_annotations (rows : List (String × String × String)) : Groupings :=
  rows.foldl processRow ⟨[], []⟩

/-- A post's confirmed-symptom set (empty for an identifier the grouping
does not hold). -/
def symsOf (g : Groupings) (pid : String) : List String :=
  dLookup g.post_to_symptoms pid []

/-- A post's explanation list (empty for an identifier the grouping does
not hold). -/
def explOf (g : Groupings) (pid : String) : List (String × String) :=
  dLookup g.post_to_all_annotations pid []

/-- Helper of `pySplit`: accumulate the current (reversed) token while
scanning the characters. -/
def splitWsAux : List Char → List Char → List String
  | [], cur => if cur.isEmpty then [] else [String.mk cur.reverse]
  | c :: cs, cur =>
    if c.isWhitespace then
      if cur.isEmpty then splitWsAux cs []
      else String.mk cur.reverse :: splitWsAux cs []
    else splitWsAux cs (c :: cur)

/-- Python `str.split()` with no argument: the maximal whitespace-free runs,
with no empty tokens. -/
def pySplit (s : String) : List String :=
  splitWsAux s.data []

/-- Python `x / n if n else 0` (the guarded averages in the source). -/
def guardedDiv (x : Rat) (n : Nat) : Rat :=
  if n ≠ 0 then x / n else 0

/-- Python `/`: raises `ZeroDivisionError` on a zero denominator. -/
def pyDiv (x : Rat) (n : Nat) : Except String Rat :=
  if n = 0 then .error "ZeroDivisionError: division by zero"
  else .ok (x / n)

/-- Python `min` over a list of naturals (raises on an empty sequence). -/
def pyMin (l : List Nat) : Except String Nat :=
  match l with
  | [] => .error "ValueError: min() arg is an empty sequence"
  | x :: xs => .ok (xs.foldl Nat.min x)

/-- Python `max` over a list of naturals (raises on an empty sequence). -/
def pyMax (l : List Nat) : Except String Nat :=
  match l with
  | [] => .error "ValueError: max() arg is an empty sequence"
  | x :: xs => .ok (xs.foldl Nat.max x)

/-- `statistics.median`: the middle of the sorted data for odd sizes, the
average of the two middle values for even sizes. -/
def pyMedian (l : List Nat) : Except String Rat :=
  if l.length = 0 then .error "StatisticsError: no median for empty data"
  else
    let s := List.insertionSort (· ≤ ·) l
    if l.length % 2 = 1 then .ok ((s.getD (l.length / 2) 0 : Nat) : Rat)
    else .ok (((s.getD (l.length / 2 - 1) 0 : Nat) +
               (s.getD (l.length / 2) 0 : Nat) : Rat) / 2)

/-- The sum of squared deviations from the mean, over exact rationals
(`statistics.stdev` works with exact fractions before the final root). -/
def sumSqDev (l : List Nat) : Rat :=
  let mean : Rat := (l.map (fun x => (x : Rat))).sum / l.length
  (l.map (fun x => ((x : Rat) - mean) ^ 2)).sum

/-- `statistics.stdev`: the square root of the Bessel-corrected sample
variance (sum of squared deviations divided by `n - 1`). -/
noncomputable def pyStdev (l : List Nat) : Real :=
  Real.sqrt ((sumSqDev l / ((l.length : Rat) - 1) : Rat) : Real)

/-- `std_dev_length = statistics.stdev(post_lengths) if n_of_posts > 1 else 0`
(the only use of the standard deviation in the source). -/
noncomputable def std_dev_length (n_of_posts : Nat) (post_lengths : List Nat) :
    Real :=
  if 1 < n_of_posts then pyStdev post_lengths else 0

/-- `sum(m(dd[pid]) for pid in post_ids)` over a defaultdict `dd` with
default `dflt`: the three generator sums of `print_statistics` all have this
shape.  Returns the sum together with the (possibly grown) defaultdict. -/
def genSum {β : Type} (post_ids : List String) (d : Dict β) (dflt : β)
    (m : β → Nat) : Nat × Dict β :=
  post_ids.foldl
    (fun acc pid =>
      let r := dGet acc.2 pid dflt
      (acc.1 + m r.1, r.2))
    (0, d)

/-- The computed metrics of `print_statistics` (the printed report body).
The standard deviation is recovered from `n_of_posts` and `post_lengths` by
`std_dev_length`, because its square root is not computable over `Real`. -/
structure Stats where
  n_of_posts : Nat
  n_of_explanations : Nat
  avg_explanations_per_post : Rat
  n_of_hard_negatives : Nat
  post_lengths : List Nat
  avg_length : Rat
  min_length : Nat
  max_length : Nat
  median_length : Rat
  avg_symptoms_per_post : Rat
deriving DecidableEq, Repr

/-- The length-statistics part of `print_statistics`, in source order:
`post_lengths` (a `KeyError` for an identifier missing from `posts`), then
the unguarded `avg_length` (a `ZeroDivisionError` on an empty corpus), then
`min`, `max` and the median. -/
def length_stats (post_ids : List String) (posts : Dict String) :
    Except String (List Nat × Rat × Nat × Nat × Rat) := do
  let post_lengths ← post_ids.mapM (fun pid =>
    match dictFind? posts pid with
    | some t => Except.ok (pySplit t).length
    | none => Except.error "KeyError")
  let avg_length ← pyDiv post_lengths.sum post_ids.length
  let min_length ← pyMin post_lengths
  let max_length ← pyMax post_lengths
  let median_length ← pyMedian post_lengths
  .ok (post_lengths, avg_length, min_length, max_length, median_length)

/-- The computation part of `print_statistics`.  The three defaultdict
generator sums are `genSum` instances; the source computes the symptom sum
after the length statistics, but the two touch disjoint state, so the
grouping threading commutes with the `Except` steps. -/
def print_statistics (post_ids : List String) (posts : Dict String)
    (g : Groupings) : Except String (Stats × Groupings) :=
  let n_of_posts := post_ids.length
  let e := genSum post_ids g.post_to_all_annotations [] List.length
  let avg_explanations_per_post := guardedDiv e.1 n_of_posts
  let hn := genSum post_ids g.post_to_symptoms []
    (fun s => if s.isEmpty then 1 else 0)
  let st := genSum post_ids hn.2 [] List.length
  let avg_symptoms_per_post := guardedDiv st.1 n_of_posts
  (length_stats post_ids posts).map (fun ls =>
    (⟨n_of_posts, e.1, avg_explanations_per_post, hn.1, ls.1, ls.2.1,
      ls.2.2.1, ls.2.2.2.1, ls.2.2.2.2, avg_symptoms_per_post⟩,
     ⟨st.2, e.2⟩))

/-- `Counter[s] += 1`: the `Counter` read defaults to `0`. -/
def counterAdd (c : Dict Nat) (s : String) : Dict Nat :=
  dModify c s 0 (fun n => n + 1)

/-- The `Counter` built by `print_symptom_distribution`, iterating each
post's symptom set in grouping order. -/
def buildCounter (sym : Dict (List String)) : Dict Nat :=
  sym.foldl (fun c p => p.2.foldl counterAdd c) []

/-- The comparison `Counter.most_common` sorts by: count descending. -/
abbrev countGE (a b : String × Nat) : Prop := b.2 ≤ a.2

instance : IsTotal (String × Nat) countGE :=
  ⟨fun a b => Nat.le_total b.2 a.2⟩

instance : IsTrans (String × Nat) countGE :=
  ⟨fun _ _ _ h1 h2 => Nat.le_trans h2 h1⟩

/-- `Counter.most_common()`: the items sorted by count descending with a
stable sort (ties keep the counter's insertion order). -/
def most_common (c : Dict Nat) : Dict Nat :=
  List.insertionSort countGE c

/-- `print_symptom_distribution`: the `(symptom, count)` lines in print
order. -/
def print_symptom_distribution (sym : Dict (List String)) :
    List (String × Nat) :=
  most_common (buildCounter sym)

/-- `main`: load both tables, report over all post ids (post-map key order),
then print the distribution of the — by then possibly grown — symptom
grouping. -/
def main_model (postRows : List (String × String))
    (annRows : List (String × String × String)) :
    Except String (Stats × List (String × Nat)) :=
  let posts := load_full_posts postRows
  let g := load_annotations annRows
  let all_post_ids := posts.map Prod.fst
  (print_statistics all_post_ids posts g).map (fun r =>
    (r.1, print_symptom_distribution r.2.post_to_symptoms))

/-- The format a print statement applies to its numeric value: `two_dec`
for an f-string `:.2f` specifier, `plain` for default formatting. -/
inductive NumFmt
  | two_dec
  | plain
deriving DecidableEq, Repr

/-- The ten labelled metric lines of the statistics block, in print order,
each with the format specifier its print statement applies (the median line
carries no `:.2f` in the source). -/
def statLineFormats : List (String × NumFmt) := [
  ("Total number of posts", .plain),
  ("Total number of explanations (all status)", .plain),
  ("Avg. number of explanations per post", .two_dec),
  ("Avg. number of symptoms per post (status=1 only)", .two_dec),
  ("Number of hard negatives", .plain),
  ("Avg. length of post (in words)", .two_dec),
  ("Median length of post (in words)", .plain),
  ("Std. dev. of post length (in words)", .two_dec),
  ("Min. length of post (in words)", .plain),
  ("Max. length of post (in words)", .plain)]

/-- Scenario A posts table. -/
def scenarioA_posts : List (String × String) :=
  [("p1", "a b c"), ("p2", "a b c d e")]

/-- Scenario A annotation table. -/
def scenarioA_ann : List (String × String × String) :=
  [("p1", "DEPRESSED_MOOD", "1"), ("p1", "ANHEDONIA", "0"),
   ("p2", "WORTHLESSNESS", "1")]

/-! ### Dictionary lemmas -/

theorem dictFind?_dictSet {β : Type} (d : Dict β) (k : String) (v : β)
    (q : String) :
    dictFind? (dictSet d k v) q = if q = k then some v else dictFind? d q := by
  induction d with
  | nil =>
    by_cases h : q = k
    · subst h; simp [dictSet, dictFind?]
    · have h2 : ¬ k = q := fun he => h he.symm
      simp [dictSet, dictFind?, h, h2]
  | cons p ps ih =>
    by_cases hpk : p.1 = k
    · by_cases hq : q = k
      · subst hq; simp [dictSet, dictFind?, hpk]
      · have h1 : ¬ k = q := fun he => hq he.symm
        have h2 : ¬ p.1 = q := by rw [hpk]; exact h1
        simp [dictSet, dictFind?, hpk, hq, h1, h2]
    · by_cases hpq : p.1 = q
      · have hq : ¬ q = k := by rw [← hpq]; exact fun he => hpk he
        simp [dictSet, dictFind?, hpk, hpq, hq]
      · simp [dictSet, dictFind?, hpk, hpq, ih]

theorem dictFind?_dModify {β : Type} (d : Dict β) (k : String) (dflt : β)
    (f : β → β) (q : String) :
    dictFind? (dModify d k dflt f) q =
      if q = k then some (f (dLookup d k dflt)) else dictFind? d q := by
  induction d with
  | nil =>
    by_cases h : q = k
    · subst h; simp [dModify, dictFind?, dLookup]
    · have h2 : ¬ k = q := fun he => h he.symm
      simp [dModify, dictFind?, h, h2]
  | cons p ps ih =>
    by_cases hpk : p.1 = k
    · by_cases hq : q = k
      · subst hq; simp [dModify, dictFind?, dLookup, hpk]
      · have h1 : ¬ k = q := fun he => hq he.symm
        have h2 : ¬ p.1 = q := by rw [hpk]; exact h1
        simp [dModify, dictFind?, hpk, hq, h1, h2]
    · by_cases hpq : p.1 = q
      · have hq : ¬ q = k := by rw [← hpq]; exact fun he => hpk he
        simp [dModify, dictFind?, hpk, hpq, hq]
      · have hlk : dLookup (p :: ps) k dflt = dLookup ps k dflt := by
          simp [dLookup, dictFind?, hpk]
        simp [dModify, dictFind?, hpk, hpq, ih, hlk]

theorem dictFind?_append_of_some {β : Type} {d₁ : Dict β} {q : String} {v : β}
    (h : dictFind? d₁ q = some v) (d₂ : Dict β) :
    dictFind? (d₁ ++ d₂) q = some v := by
  induction d₁ with
  | nil => simp [dictFind?] at h
  | cons p ps ih =>
    by_cases hq : p.1 = q <;> simp_all [dictFind?]

theorem dictFind?_append_of_none {β : Type} {d₁ : Dict β} {q : String}
    (h : dictFind? d₁ q = none) (d₂ : Dict β) :
    dictFind? (d₁ ++ d₂) q = dictFind? d₂ q := by
  induction d₁ with
  | nil => simp [dictFind?]
  | cons p ps ih =>
    by_cases hq : p.1 = q <;> simp_all [dictFind?]

theorem dGet_fst {β : Type} (d : Dict β) (k : String) (dflt : β) :
    (dGet d k dflt).1 = dLookup d k dflt := by
  cases h : dictFind? d k <;> simp [dGet, dLookup, h]

theorem dictFind?_dGet_snd {β : Type} (d : Dict β) (k : String) (dflt : β)
    (q : String) :
    dictFind? (dGet d k dflt).2 q =
      (dictFind? d q).elim (if q = k then some dflt else none) some := by
  cases h : dictFind? d k with
  | some v =>
    cases hq : dictFind? d q with
    | some w => simp [dGet, h, hq]
    | none =>
      have hqk : ¬ q = k := fun he => by rw [he, h] at hq; exact Option.noConfusion hq
      simp [dGet, h, hq, hqk]
  | none =>
    by_cases hq : q = k
    · subst hq
      simp [dGet, h, dictFind?_append_of_none h, dictFind?]
    · cases hq2 : dictFind? d q with
      | some w => simp [dGet, h, dictFind?_append_of_some hq2, hq2]
      | none =>
        have : dictFind? ([(k, dflt)] : Dict β) q = none := by
          simp [dictFind?, Ne.symm hq]
        simp [dGet, h, dictFind?_append_of_none hq2, this, hq2, hq]

theorem dLookup_dGet_snd {β : Type} (d : Dict β) (k : String) (dflt : β)
    (q : String) :
    dLookup (dGet d k dflt).2 q dflt = dLookup d q dflt := by
  rw [dLookup, dictFind?_dGet_snd]
  cases hq : dictFind? d q with
  | some w => simp [dLookup, hq]
  | none =>
    by_cases h : q = k
    · subst h; simp [dLookup, hq]
    · simp [dLookup, hq, h]

theorem dictFind?_mem {β : Type} {d : Dict β} {q : String} {v : β} :
    dictFind? d q = some v → (q, v) ∈ d := by
  induction d with
  | nil => intro h; simp [dictFind?] at h
  | cons p ps ih =>
    intro h
    obtain ⟨a, b⟩ := p
    simp only [dictFind?] at h
    by_cases hq : a = q
    · rw [if_pos hq] at h
      obtain rfl : b = v := Option.some.inj h
      subst hq
      exact List.mem_cons_self _ _
    · rw [if_neg hq] at h
      exact List.mem_cons_of_mem _ (ih h)

theorem dictFind?_eq_none_iff {β : Type} (d : Dict β) (q : String) :
    dictFind? d q = none ↔ q ∉ d.map Prod.fst := by
  induction d with
  | nil => simp [dictFind?]
  | cons p ps ih =>
    by_cases hq : p.1 = q
    · simp [dictFind?, hq, eq_comm]
    · have h2 : ¬ q = p.1 := fun he => hq he.symm
      simp [dictFind?, hq, h2, ih]

theorem mem_dictFind?_of_nodup {β : Type} {d : Dict β} {q : String} {v : β}
    (hnd : (d.map Prod.fst).Nodup) (h : (q, v) ∈ d) :
    dictFind? d q = some v := by
  induction d with
  | nil => simp at h
  | cons p ps ih =>
    simp only [List.map_cons, List.nodup_cons] at hnd
    rcases List.mem_cons.mp h with h1 | h1
    · subst h1; simp [dictFind?]
    · have hq : ¬ p.1 = q := by
        intro he
        exact hnd.1 (he ▸ (List.mem_map.mpr ⟨(q, v), h1, rfl⟩))
      simp only [dictFind?, hq, if_neg, not_false_iff]
      exact ih hnd.2 h1

/-! ### `setAdd` lemmas -/

theorem mem_setAdd {s : List String} {x y : String} :
    x ∈ setAdd s y ↔ x ∈ s ∨ x = y := by
  by_cases h : y ∈ s
  · simp only [setAdd, if_pos h]
    constructor
    · exact Or.inl
    · rintro (hx | rfl) <;> assumption
  · simp [setAdd, if_neg h]

theorem nodup_setAdd {s : List String} (h : s.Nodup) (y : String) :
    (setAdd s y).Nodup := by
  by_cases hy : y ∈ s
  · simpa [setAdd, hy] using h
  · simp only [setAdd, if_neg hy]
    simpa [List.nodup_append] using ⟨h, hy⟩

theorem length_setAdd_le (s : List String) (y : String) :
    (setAdd s y).length ≤ s.length + 1 := by
  by_cases hy : y ∈ s <;> simp [setAdd, hy]

theorem mem_foldl_setAdd {α : Type} (f : α → String) :
    ∀ (l : List α) (s : List String) (x : String),
      x ∈ l.foldl (fun s r => setAdd s (f r)) s ↔ x ∈ s ∨ ∃ r ∈ l, f r = x := by
  intro l
  induction l with
  | nil => simp
  | cons r rs ih =>
    intro s x
    rw [List.foldl_cons, ih, mem_setAdd]
    constructor
    · rintro ((hx | rfl) | ⟨r', hr', rfl⟩)
      · exact Or.inl hx
      · exact Or.inr ⟨r, List.mem_cons_self r rs, rfl⟩
      · exact Or.inr ⟨r', List.mem_cons_of_mem _ hr', rfl⟩
    · rintro (hx | ⟨r', hr', rfl⟩)
      · exact Or.inl (Or.inl hx)
      · rcases List.mem_cons.mp hr' with rfl | hr''
        · exact Or.inl (Or.inr rfl)
        · exact Or.inr ⟨r', hr'', rfl⟩

theorem nodup_foldl_setAdd {α : Type} (f : α → String) :
    ∀ (l : List α) (s : List String), s.Nodup →
      (l.foldl (fun s r => setAdd s (f r)) s).Nodup := by
  intro l
  induction l with
  | nil => exact fun s h => h
  | cons r rs ih =>
    intro s hs
    exact ih _ (nodup_setAdd hs (f r))

theorem length_foldl_setAdd_le {α : Type} (f : α → String) :
    ∀ (l : List α) (s : List String),
      (l.foldl (fun s r => setAdd s (f r)) s).length ≤ s.length + l.length := by
  intro l
  induction l with
  | nil => simp
  | cons r rs ih =>
    intro s
    rw [List.foldl_cons]
    refine le_trans (ih (setAdd s (f r))) ?_
    have := length_setAdd_le s (f r)
    simp only [List.length_cons]
    omega

theorem dLookup_dModify {β : Type} (d : Dict β) (k : String) (dflt : β)
    (f : β → β) (q : String) :
    dLookup (dModify d k dflt f) q dflt =
      if q = k then f (dLookup d k dflt) else dLookup d q dflt := by
  rw [dLookup, dictFind?_dModify]
  by_cases h : q = k <;> simp [h, dLookup]

/-! ### `genSum` lemmas -/

theorem genSum_shift {β : Type} (dflt : β) (m : β → Nat) :
    ∀ (ids : List String) (a : Nat) (d : Dict β),
      ids.foldl (fun acc pid =>
        let r := dGet acc.2 pid dflt
        (acc.1 + m r.1, r.2)) (a, d)
      = (a + (genSum ids d dflt m).1, (genSum ids d dflt m).2) := by
  intro ids
  induction ids with
  | nil => intro a d; simp [genSum]
  | cons pid ids ih =>
    intro a d
    rw [List.foldl_cons]
    show List.foldl _
      (a + m (dGet d pid dflt).1, (dGet d pid dflt).2) ids = _
    rw [ih]
    have h2 : genSum (pid :: ids) d dflt m
        = (m (dGet d pid dflt).1 +
            (genSum ids (dGet d pid dflt).2 dflt m).1,
           (genSum ids (dGet d pid dflt).2 dflt m).2) := by
      rw [genSum, List.foldl_cons]
      show List.foldl _
        (0 + m (dGet d pid dflt).1, (dGet d pid dflt).2) ids = _
      rw [ih]
      simp
    rw [h2]
    simp [Nat.add_assoc]

theorem genSum_fst {β : Type} (dflt : β) (m : β → Nat) :
    ∀ (ids : List String) (d : Dict β),
      (genSum ids d dflt m).1 =
        (ids.map (fun pid => m (dLookup d pid dflt))).sum := by
  intro ids
  induction ids with
  | nil => intro d; simp [genSum]
  | cons pid ids ih =>
    intro d
    rw [genSum, List.foldl_cons]
    show (List.foldl _
      (0 + m (dGet d pid dflt).1, (dGet d pid dflt).2) ids).1 = _
    rw [genSum_shift]
    have hmap : ids.map
        (fun pid2 => m (dLookup (dGet d pid dflt).2 pid2 dflt)) =
        ids.map (fun pid2 => m (dLookup d pid2 dflt)) :=
      List.map_congr_left (fun a _ => by rw [dLookup_dGet_snd])
    simp only [List.map_cons, List.sum_cons, Nat.zero_add]
    rw [ih, hmap, dGet_fst]

theorem genSum_find? {β : Type} (dflt : β) (m : β → Nat) :
    ∀ (ids : List String) (d : Dict β) (q : String),
      dictFind? (genSum ids d dflt m).2 q =
        (dictFind? d q).elim (if q ∈ ids then some dflt else none) some := by
  intro ids
  induction ids with
  | nil => intro d q; cases h : dictFind? d q <;> simp [genSum, h]
  | cons pid ids ih =>
    intro d q
    rw [genSum, List.foldl_cons]
    show dictFind? (List.foldl _
      (0 + m (dGet d pid dflt).1, (dGet d pid dflt).2) ids).2 q = _
    rw [genSum_shift, ih, dictFind?_dGet_snd]
    cases h : dictFind? d q with
    | some v => simp
    | none =>
      by_cases hq : q = pid
      · subst hq; simp
      · simp [hq]

theorem genSum_snd_append {β : Type} (dflt : β) (m : β → Nat) :
    ∀ (ids : List String) (d : Dict β),
      ∃ ks : List String,
        (genSum ids d dflt m).2 = d ++ ks.map (fun k => (k, dflt)) := by
  intro ids
  induction ids with
  | nil => intro d; exact ⟨[], by simp [genSum]⟩
  | cons pid ids ih =>
    intro d
    rw [genSum, List.foldl_cons]
    show ∃ ks, (List.foldl _
      (0 + m (dGet d pid dflt).1, (dGet d pid dflt).2) ids).2 = _
    rw [genSum_shift]
    obtain ⟨ks, hks⟩ := ih (dGet d pid dflt).2
    cases h : dictFind? d pid with
    | some v => exact ⟨ks, by rw [hks]; simp [dGet, h]⟩
    | none => exact ⟨pid :: ks, by rw [hks]; simp [dGet, h]⟩

theorem dLookup_genSum_snd {β : Type} (dflt : β) (m : β → Nat)
    (ids : List String) (d : Dict β) (q : String) :
    dLookup (genSum ids d dflt m).2 q dflt = dLookup d q dflt := by
  rw [dLookup, genSum_find?]
  cases h : dictFind? d q with
  | some v => simp [dLookup, h]
  | none => by_cases hq : q ∈ ids <;> simp [dLookup, h, hq]

/-! ### Aggregator step lemmas -/

theorem processRow_post_to_symptoms (g : Groupings)
    (r : String × String × String) :
    (processRow g r).post_to_symptoms =
      if r.2.2 = "1" ∧ r.2.1 ∈ DSM5_SYMPTOM_NAMES then
        dModify g.post_to_symptoms r.1 [] (fun s => setAdd s r.2.1)
      else g.post_to_symptoms := by
  obtain ⟨pid, symptom, status⟩ := r
  by_cases h1 : status = "1" ∧ symptom ∈ DSM5_SYMPTOM_NAMES <;>
    by_cases h01 : status = "0" ∨ status = "1" <;>
      simp [processRow, h1, h01]

theorem processRow_post_to_all (g : Groupings)
    (r : String × String × String) :
    (processRow g r).post_to_all_annotations =
      if r.2.2 = "0" ∨ r.2.2 = "1" then
        dModify g.post_to_all_annotations r.1 []
          (fun l => l ++ [(r.2.1, r.2.2)])
      else g.post_to_all_annotations := by
  obtain ⟨pid, symptom, status⟩ := r
  by_cases h1 : status = "1" ∧ symptom ∈ DSM5_SYMPTOM_NAMES <;>
    by_cases h01 : status = "0" ∨ status = "1" <;>
      simp [processRow, h1, h01]

theorem symsOf_processRow (g : Groupings) (r : String × String × String)
    (q : String) :
    symsOf (processRow g r) q =
      if r.1 = q ∧ r.2.2 = "1" ∧ r.2.1 ∈ DSM5_SYMPTOM_NAMES then
        setAdd (symsOf g q) r.2.1
      else symsOf g q := by
  rw [symsOf, processRow_post_to_symptoms]
  by_cases h1 : r.2.2 = "1" ∧ r.2.1 ∈ DSM5_SYMPTOM_NAMES
  · rw [if_pos h1, dLookup_dModify]
    by_cases hq : r.1 = q
    · subst hq; simp [symsOf, h1]
    · have h2 : ¬ q = r.1 := fun he => hq he.symm
      simp [symsOf, h1, hq, h2]
  · simp [symsOf, h1, fun (h : r.1 = q) => h1]

theorem explOf_processRow (g : Groupings) (r : String × String × String)
    (q : String) :
    explOf (processRow g r) q =
      explOf g q ++
        (if r.1 = q ∧ (r.2.2 = "0" ∨ r.2.2 = "1") then [(r.2.1, r.2.2)]
         else []) := by
  rw [explOf, processRow_post_to_all]
  by_cases h01 : r.2.2 = "0" ∨ r.2.2 = "1"
  · rw [if_pos h01, dLookup_dModify]
    by_cases hq : r.1 = q
    · subst hq; simp [explOf, h01]
    · have h2 : ¬ q = r.1 := fun he => hq he.symm
      simp [explOf, h01, hq, h2]
  · simp [explOf, h01]

/-! ### Characterization of the aggregated groupings -/

theorem symsOf_foldl :
    ∀ (rows : List (String × String × String)) (g : Groupings) (q : String),
      symsOf (rows.foldl processRow g) q =
        (rows.filter (fun r =>
          decide (r.1 = q ∧ r.2.2 = "1" ∧ r.2.1 ∈ DSM5_SYMPTOM_NAMES))).foldl
          (fun s r => setAdd s r.2.1) (symsOf g q) := by
  intro rows
  induction rows with
  | nil => intro g q; simp
  | cons r rows ih =>
    intro g q
    rw [List.foldl_cons, ih, symsOf_processRow]
    by_cases h : r.1 = q ∧ r.2.2 = "1" ∧ r.2.1 ∈ DSM5_SYMPTOM_NAMES
    · rw [if_pos h, List.filter_cons_of_pos (by simpa using h), List.foldl_cons]
    · rw [if_neg h, List.filter_cons_of_neg (by simpa using h)]

theorem symsOf_load (rows : List (String × String × String)) (q : String) :
    symsOf (load_annotations rows) q =
      (rows.filter (fun r =>
        decide (r.1 = q ∧ r.2.2 = "1" ∧ r.2.1 ∈ DSM5_SYMPTOM_NAMES))).foldl
        (fun s r => setAdd s r.2.1) [] := by
  rw [load_annotations, symsOf_foldl]
  rfl

theorem explOf_foldl :
    ∀ (rows : List (String × String × String)) (g : Groupings) (q : String),
      explOf (rows.foldl processRow g) q =
        explOf g q ++
          (rows.filter (fun r =>
            decide (r.1 = q ∧ (r.2.2 = "0" ∨ r.2.2 = "1")))).map
            (fun r => (r.2.1, r.2.2)) := by
  intro rows
  induction rows with
  | nil => intro g q; simp
  | cons r rows ih =>
    intro g q
    rw [List.foldl_cons, ih, explOf_processRow]
    by_cases h : r.1 = q ∧ (r.2.2 = "0" ∨ r.2.2 = "1")
    · rw [if_pos h, List.filter_cons_of_pos (by simpa using h), List.map_cons,
        List.append_assoc]
      rfl
    · rw [if_neg h, List.filter_cons_of_neg (by simpa using h)]
      simp

theorem explOf_load (rows : List (String × String × String)) (q : String) :
    explOf (load_annotations rows) q =
      (rows.filter (fun r =>
        decide (r.1 = q ∧ (r.2.2 = "0" ∨ r.2.2 = "1")))).map
        (fun r => (r.2.1, r.2.2)) := by
  rw [load_annotations, explOf_foldl]
  rfl

theorem nodup_symsOf_load (rows : List (String × String × String))
    (q : String) : (symsOf (load_annotations rows) q).Nodup := by
  rw [symsOf_load]
  exact nodup_foldl_setAdd (fun r : String × String × String => r.2.1) _ []
    List.nodup_nil

theorem mem_symsOf_load (rows : List (String × String × String))
    (q s : String) :
    s ∈ symsOf (load_annotations rows) q ↔
      (q, s, "1") ∈ rows ∧ s ∈ DSM5_SYMPTOM_NAMES := by
  rw [symsOf_load, mem_foldl_setAdd]
  simp only [List.not_mem_nil, false_or]
  constructor
  · rintro ⟨r, hr, rfl⟩
    rw [List.mem_filter] at hr
    obtain ⟨hmem, hcond⟩ := hr
    rw [decide_eq_true_iff] at hcond
    obtain ⟨h1, h2, h3⟩ := hcond
    obtain ⟨a, b, c⟩ := r
    simp only at h1 h2 h3 ⊢
    subst h1; subst h2
    exact ⟨hmem, h3⟩
  · rintro ⟨hmem, hs⟩
    refine ⟨(q, s, "1"), ?_, rfl⟩
    rw [List.mem_filter]
    exact ⟨hmem, by simp [hs]⟩

/-! ### Key-set invariants -/

theorem keys_dModify {β : Type} (d : Dict β) (k : String) (dflt : β)
    (f : β → β) :
    (dModify d k dflt f).map Prod.fst =
      if k ∈ d.map Prod.fst then d.map Prod.fst
      else d.map Prod.fst ++ [k] := by
  induction d with
  | nil => simp [dModify]
  | cons p ps ih =>
    by_cases hk : p.1 = k
    · simp [dModify, hk]
    · have h2 : ¬ k = p.1 := fun he => hk he.symm
      by_cases hmem : k ∈ ps.map Prod.fst <;>
        simp [dModify, hk, h2, hmem, ih]

theorem keysNodup_dModify {β : Type} {d : Dict β}
    (h : (d.map Prod.fst).Nodup) (k : String) (dflt : β) (f : β → β) :
    ((dModify d k dflt f).map Prod.fst).Nodup := by
  rw [keys_dModify]
  by_cases hk : k ∈ d.map Prod.fst
  · simpa [hk] using h
  · rw [if_neg hk]
    refine h.append (List.nodup_singleton k) ?_
    intro a ha hb
    rw [List.mem_singleton] at hb
    subst hb
    exact hk ha

theorem keysNodup_foldl_sym :
    ∀ (rows : List (String × String × String)) (g : Groupings),
      ((g.post_to_symptoms.map Prod.fst).Nodup) →
      (((rows.foldl processRow g).post_to_symptoms.map Prod.fst).Nodup) := by
  intro rows
  induction rows with
  | nil => exact fun g h => h
  | cons r rows ih =>
    intro g hg
    rw [List.foldl_cons]
    refine ih _ ?_
    rw [processRow_post_to_symptoms]
    by_cases h : r.2.2 = "1" ∧ r.2.1 ∈ DSM5_SYMPTOM_NAMES
    · rw [if_pos h]
      exact keysNodup_dModify hg _ _ _
    · rwa [if_neg h]

theorem keysNodup_load_sym (rows : List (String × String × String)) :
    (((load_annotations rows).post_to_symptoms.map Prod.fst).Nodup) :=
  keysNodup_foldl_sym rows ⟨[], []⟩ List.nodup_nil

theorem values_load_sym {rows : List (String × String × String)}
    {p : String × List String}
    (h : p ∈ (load_annotations rows).post_to_symptoms) :
    p.2 = symsOf (load_annotations rows) p.1 := by
  obtain ⟨q, v⟩ := p
  have := mem_dictFind?_of_nodup (keysNodup_load_sym rows) h
  simp only [symsOf, dLookup, this, Option.getD_some]

/-! ### Claims C3–C6 -/

/-- C3: with an empty identifier list the two guarded averages are defined
as zero (`x / n if n else 0` is `0` for `n = 0`), while the length
statistics fail fast: `print_statistics` raises `ZeroDivisionError` at the
unguarded `avg_length` division before printing anything. -/
theorem empty_corpus_behavior (posts : Dict String) (g : Groupings)
    (x : Rat) :
    guardedDiv x 0 = 0 ∧
      print_statistics [] posts g =
        .error "ZeroDivisionError: division by zero" :=
  ⟨by simp [guardedDiv], rfl⟩

/-- C4: the aggregator classifies every row in one pass: the explanation
list of a post is exactly the in-order sequence of `(symptom, status)`
pairs of its rows with status `"0"` or `"1"` (duplicates kept); its
confirmed-symptom set contains a label iff a row `(pid, label, "1")` exists
and the label is in the taxonomy value set; the set is duplicate-free
(repeat confirmations are idempotent).  Rows with any other status appear
in neither characterization. -/
theorem aggregator_row_classification
    (rows : List (String × String × String)) (pid : String) :
    explOf (load_annotations rows) pid =
      (rows.filter (fun r =>
        decide (r.1 = pid ∧ (r.2.2 = "0" ∨ r.2.2 = "1")))).map
        (fun r => (r.2.1, r.2.2))
    ∧ (∀ s, s ∈ symsOf (load_annotations rows) pid ↔
        (pid, s, "1") ∈ rows ∧ s ∈ DSM5_SYMPTOM_NAMES)
    ∧ (symsOf (load_annotations rows) pid).Nodup :=
  ⟨explOf_load rows pid, fun s => mem_symsOf_load rows pid s,
    nodup_symsOf_load rows pid⟩

/-- C5: for every annotation dataset and every post identifier, the
explanation list is at least as long as the confirmed-symptom set
(identifiers absent from a grouping count as empty). -/
theorem explanation_superset (rows : List (String × String × String))
    (pid : String) :
    (symsOf (load_annotations rows) pid).length ≤
      (explOf (load_annotations rows) pid).length := by
  rw [symsOf_load, explOf_load, List.length_map]
  refine le_trans
    (length_foldl_setAdd_le (fun r : String × String × String => r.2.1) _ []) ?_
  simp only [List.length_nil, Nat.zero_add]
  refine List.Sublist.length_le (List.monotone_filter_right _ ?_)
  intro r h
  rw [decide_eq_true_iff] at h ⊢
  exact ⟨h.1, Or.inr h.2.1⟩

/-- C6: the post loader processes rows in file order with last-write-wins:
the loaded map's entry for an identifier is the text of the last row with
that identifier (and `none` when no row has it); rows with empty text are
accepted like any other. -/
theorem post_loader_last_write_wins (rows : List (String × String))
    (pid : String) :
    dictFind? (load_full_posts rows) pid =
      ((rows.filter (fun r => decide (r.1 = pid))).getLast?).map Prod.snd := by
  induction rows using List.reverseRecOn with
  | nil => simp [load_full_posts, dictFind?]
  | append_singleton rows r ih =>
    rw [load_full_posts, List.foldl_append, List.foldl_cons, List.foldl_nil]
    rw [show List.foldl (fun posts row => dictSet posts row.1 row.2) [] rows
      = load_full_posts rows from rfl]
    rw [dictFind?_dictSet, List.filter_append]
    by_cases h : pid = r.1
    · rw [if_pos h]
      have : (List.filter (fun r => decide (r.1 = pid)) [r]) = [r] := by
        simp [h.symm]
      rw [this, List.getLast?_concat]
      rfl
    · rw [if_neg h]
      have : (List.filter (fun r => decide (r.1 = pid)) [r]) = [] := by
        simp; exact fun he => h he.symm
      rw [this, List.append_nil, ih]

/-! ### Claim C1: Scenario A end to end -/

/-- C1: on Scenario A the full pipeline (load posts, aggregate annotations,
report over all post ids) yields post count 2, explanation count 3, average
explanations per post 1.50, average symptoms per post 1.00, zero hard
negatives, post lengths `[3, 5]` with mean 4.00, median 4, min 3 and max 5,
and the distribution `DEPRESSED_MOOD: 1`, `WORTHLESSNESS: 1`. -/
theorem scenarioA_pipeline_report :
    main_model scenarioA_posts scenarioA_ann =
      Except.ok
        (⟨2, 3, 3 / 2, 0, [3, 5], 4, 3, 5, 4, 1⟩,
         [("DEPRESSED_MOOD", 1), ("WORTHLESSNESS", 1)]) := by
  rw [show main_model scenarioA_posts scenarioA_ann = Except.ok
    (⟨2, 3, ((3 : Nat) : Rat) / ((2 : Nat) : Rat), 0, [3, 5],
      ((8 : Nat) : Rat) / ((2 : Nat) : Rat), 3, 5,
      (((3 : Nat) : Rat) + ((5 : Nat) : Rat)) / 2,
      ((2 : Nat) : Rat) / ((2 : Nat) : Rat)⟩,
     [("DEPRESSED_MOOD", 1), ("WORTHLESSNESS", 1)]) from rfl]
  norm_num

/-! ### Claim C2: the Reporter does mutate its defaultdict inputs -/

/-- C2 counterexample: reporting over the single post `"p"` with both
groupings empty leaves the groupings changed — the defaultdict reads insert
an empty entry for `"p"` into each grouping, so the inputs are not exactly
equal to their values before the call. -/
theorem reporter_mutates_groupings :
    (print_statistics ["p"] [("p", "x")] (Groupings.mk [] [])).map Prod.snd ≠
      Except.ok (Groupings.mk [] []) := by
  rw [show (print_statistics ["p"] [("p", "x")] (Groupings.mk [] [])).map
      Prod.snd = Except.ok (Groupings.mk [("p", [])] [("p", [])]) from rfl]
  simp

/-- C2 (amended): the Reporter leaves every stored value intact and adds
only empty-default entries, exactly for the queried identifiers that were
absent: after a successful call each grouping maps a key to its old value
when one existed, to the empty default when the key was freshly queried,
and to nothing otherwise.  (The post map is read with plain dict lookups
and is not threaded through any state at all.) -/
theorem reporter_frame_condition (post_ids : List String)
    (posts : Dict String) (g : Groupings) (stats : Stats) (g' : Groupings)
    (k : String)
    (h : print_statistics post_ids posts g = Except.ok (stats, g')) :
    dictFind? g'.post_to_symptoms k =
      (dictFind? g.post_to_symptoms k).elim
        (if k ∈ post_ids then some [] else none) some
    ∧ dictFind? g'.post_to_all_annotations k =
      (dictFind? g.post_to_all_annotations k).elim
        (if k ∈ post_ids then some [] else none) some := by
  have hg' : g' = Groupings.mk
      (genSum post_ids (genSum post_ids g.post_to_symptoms []
        (fun s => if s.isEmpty then 1 else 0)).2 [] List.length).2
      (genSum post_ids g.post_to_all_annotations [] List.length).2 := by
    rw [print_statistics] at h
    cases hls : length_stats post_ids posts with
    | error msg => rw [hls] at h; simp [Except.map] at h
    | ok ls =>
      rw [hls] at h
      simp only [Except.map, Except.ok.injEq, Prod.mk.injEq] at h
      exact h.2.symm
  subst hg'
  constructor
  · show dictFind? (genSum post_ids (genSum post_ids g.post_to_symptoms []
      (fun s => if s.isEmpty then 1 else 0)).2 [] List.length).2 k = _
    rw [genSum_find?, genSum_find?]
    cases hsym : dictFind? g.post_to_symptoms k with
    | some v => simp
    | none => by_cases hk : k ∈ post_ids <;> simp [hk]
  · show dictFind? (genSum post_ids g.post_to_all_annotations []
      List.length).2 k = _
    rw [genSum_find?]

/-- C2 witness: the frame condition instantiated on the concrete
counterexample input. -/
theorem reporter_frame_condition_witness :
    dictFind? ([("p", [])] : Dict (List String)) "p" =
      (dictFind? ([] : Dict (List String)) "p").elim
        (if "p" ∈ ["p"] then some [] else none) some
    ∧ dictFind? ([("p", [])] : Dict (List (String × String))) "p" =
      (dictFind? ([] : Dict (List (String × String))) "p").elim
        (if "p" ∈ ["p"] then some [] else none) some :=
  reporter_frame_condition ["p"] [("p", "x")] (Groupings.mk [] [])
    ⟨1, 0, ((0 : Nat) : Rat) / ((1 : Nat) : Rat), 1, [1],
      ((1 : Nat) : Rat) / ((1 : Nat) : Rat), 1, 1, ((1 : Nat) : Rat),
      ((0 : Nat) : Rat) / ((1 : Nat) : Rat)⟩
    (Groupings.mk [("p", [])] [("p", [])]) "p" rfl

/-! ### Claim C9: line formats -/

/-- C9 counterexample: the median is a fractional-capable metric (a corpus
with post lengths 1 and 2 has median 1.5), yet its print line applies no
two-decimal format — its specifier is `plain`, unlike the averages and the
standard deviation. -/
theorem median_line_plain_format :
    statLineFormats.getD 6 ("", NumFmt.two_dec) =
      ("Median length of post (in words)", NumFmt.plain)
    ∧ (print_statistics ["a", "b"] [("a", "x"), ("b", "x y")]
        (Groupings.mk [] [])).map (fun r => r.1.median_length) =
      Except.ok (3 / 2) := by
  constructor
  · rfl
  · rw [show (print_statistics ["a", "b"] [("a", "x"), ("b", "x y")]
        (Groupings.mk [] [])).map (fun r => r.1.median_length) =
      Except.ok ((((1 : Nat) : Rat) + ((2 : Nat) : Rat)) / 2) from rfl]
    norm_num

/-- C9 (amended): the statistics block prints ten labelled metric lines,
one per metric with pairwise distinct labels; the three averages and the
standard deviation carry the two-decimal format, while the median — though
fractional-capable — and the integer metrics are printed with default
formatting. -/
theorem two_decimal_formats_except_median :
    statLineFormats.length = 10
    ∧ (statLineFormats.map Prod.fst).Nodup
    ∧ statLineFormats.map Prod.snd =
      [NumFmt.plain, NumFmt.plain, NumFmt.two_dec, NumFmt.two_dec,
       NumFmt.plain, NumFmt.two_dec, NumFmt.plain, NumFmt.two_dec,
       NumFmt.plain, NumFmt.plain] := by
  refine ⟨rfl, by decide, rfl⟩

/-! ### Claim C7: standard deviation -/

theorem sumSqDev_nonneg (l : List Nat) : 0 ≤ sumSqDev l := by
  rw [sumSqDev]
  refine List.sum_nonneg ?_
  intro x hx
  rw [List.mem_map] at hx
  obtain ⟨y, _, rfl⟩ := hx
  positivity

/-- C7: the reported post-length standard deviation is exactly zero when
the post count is at most one (in particular for a single-post corpus), and
for more than one post it is the nonnegative square root of the
Bessel-corrected sample variance: its square times `n - 1` is the sum of
squared deviations from the mean. -/
theorem std_dev_bessel_spec (l : List Nat) :
    (l.length ≤ 1 → std_dev_length l.length l = 0)
    ∧ (1 < l.length →
        0 ≤ std_dev_length l.length l
        ∧ (std_dev_length l.length l) ^ 2 * ((l.length : Real) - 1)
            = ((sumSqDev l : Rat) : Real))
    ∧ (∀ x : Nat, std_dev_length [x].length [x] = 0) := by
  refine ⟨?_, ?_, ?_⟩
  · intro h
    rw [std_dev_length, if_neg (by omega)]
  · intro h
    have hnn : 0 ≤ std_dev_length l.length l := by
      rw [std_dev_length, if_pos h, pyStdev]
      exact Real.sqrt_nonneg _
    refine ⟨hnn, ?_⟩
    rw [std_dev_length, if_pos h, pyStdev]
    have hv : (0 : Rat) ≤ sumSqDev l / ((l.length : Rat) - 1) := by
      refine div_nonneg (sumSqDev_nonneg l) ?_
      have h1 : (1 : Rat) < (l.length : Rat) := by exact_mod_cast h
      linarith
    rw [Real.sq_sqrt (by exact_mod_cast hv)]
    have hne : ((l.length : Real) - 1) ≠ 0 := by
      have h1 : (1 : Real) < (l.length : Real) := by exact_mod_cast h
      linarith
    push_cast
    field_simp
  · intro x
    rw [std_dev_length, if_neg (by simp)]

/-- C7 witness: a one-element corpus has standard deviation zero, and on
the two-element corpus `[3, 4]` the squared reported value times `n - 1`
is the sum of squared deviations. -/
theorem std_dev_bessel_spec_witness :
    std_dev_length [7].length [7] = 0
    ∧ (0 ≤ std_dev_length [3, 4].length [3, 4]
        ∧ (std_dev_length [3, 4].length [3, 4]) ^ 2 *
            (([3, 4].length : Real) - 1) = ((sumSqDev [3, 4] : Rat) : Real)) :=
  ⟨(std_dev_bessel_spec [7]).1 (by decide),
   (std_dev_bessel_spec [3, 4]).2.1 (by decide)⟩

/-! ### Counter lemmas -/

theorem dLookup_counterAdd (c : Dict Nat) (t s : String) :
    dLookup (counterAdd c t) s 0 =
      dLookup c s 0 + if s = t then 1 else 0 := by
  rw [counterAdd, dLookup_dModify]
  by_cases h : s = t <;> simp [h]

theorem counter_inner (s : String) :
    ∀ (l : List String) (c : Dict Nat), l.Nodup →
      dLookup (l.foldl counterAdd c) s 0 =
        dLookup c s 0 + (if s ∈ l then 1 else 0) := by
  intro l
  induction l with
  | nil => intro c _; simp
  | cons x xs ih =>
    intro c hnd
    rw [List.nodup_cons] at hnd
    rw [List.foldl_cons, ih _ hnd.2, dLookup_counterAdd]
    by_cases hx : s = x
    · subst hx
      have hxs : s ∉ xs := hnd.1
      simp [hxs]
    · rw [if_neg hx]
      simp only [List.mem_cons, hx, false_or]
      omega

theorem counter_outer (s : String) :
    ∀ (sym : Dict (List String)) (c : Dict Nat),
      (∀ p ∈ sym, p.2.Nodup) →
      dLookup (sym.foldl (fun c p => p.2.foldl counterAdd c) c) s 0 =
        dLookup c s 0 + (sym.filter (fun p => decide (s ∈ p.2))).length := by
  intro sym
  induction sym with
  | nil => intro c _; simp
  | cons p ps ih =>
    intro c hnd
    rw [List.foldl_cons,
      ih _ (fun q hq => hnd q (List.mem_cons_of_mem _ hq)),
      counter_inner s p.2 c (hnd p (List.mem_cons_self p ps))]
    by_cases hs : s ∈ p.2
    · rw [List.filter_cons_of_pos (by simpa using hs), if_pos hs,
        List.length_cons]
      omega
    · rw [List.filter_cons_of_neg (by simpa using hs), if_neg hs]
      omega

theorem dLookup_buildCounter (sym : Dict (List String)) (s : String)
    (hnd : ∀ p ∈ sym, p.2.Nodup) :
    dLookup (buildCounter sym) s 0 =
      (sym.filter (fun p => decide (s ∈ p.2))).length := by
  rw [buildCounter, counter_outer s sym [] hnd]
  simp [dLookup, dictFind?]

theorem keysNodup_counter_inner :
    ∀ (l : List String) (c : Dict Nat), (c.map Prod.fst).Nodup →
      ((l.foldl counterAdd c).map Prod.fst).Nodup := by
  intro l
  induction l with
  | nil => exact fun c h => h
  | cons x xs ih =>
    intro c hc
    rw [List.foldl_cons]
    exact ih _ (keysNodup_dModify hc x 0 _)

theorem keysNodup_buildCounter (sym : Dict (List String)) :
    ((buildCounter sym).map Prod.fst).Nodup := by
  rw [buildCounter]
  have h : ∀ (sym2 : Dict (List String)) (c : Dict Nat),
      (c.map Prod.fst).Nodup →
      ((sym2.foldl (fun c p => p.2.foldl counterAdd c) c).map
        Prod.fst).Nodup := by
    intro sym2
    induction sym2 with
    | nil => exact fun c h => h
    | cons p ps ih =>
      intro c hc
      rw [List.foldl_cons]
      exact ih _ (keysNodup_counter_inner p.2 c hc)
  exact h sym [] List.nodup_nil

/-! ### Stability of the `most_common` sort -/

theorem filter_orderedInsert (k : Nat) (a : String × Nat)
    (l : List (String × Nat)) :
    (List.orderedInsert countGE a l).filter (fun p => decide (p.2 = k)) =
      if a.2 = k then a :: l.filter (fun p => decide (p.2 = k))
      else l.filter (fun p => decide (p.2 = k)) := by
  induction l with
  | nil => by_cases h : a.2 = k <;> simp [List.orderedInsert, h]
  | cons b t ih =>
    rw [List.orderedInsert]
    by_cases hab : countGE a b
    · rw [if_pos hab]
      by_cases h : a.2 = k <;> simp [List.filter_cons, h]
    · rw [if_neg hab]
      have hlt : a.2 < b.2 := Nat.lt_of_not_le hab
      by_cases hbk : b.2 = k
      · have h : ¬ a.2 = k := by omega
        rw [List.filter_cons_of_pos (by simpa using hbk),
          List.filter_cons_of_pos (by simpa using hbk), ih]
        simp [h]
      · rw [List.filter_cons_of_neg (by simpa using hbk),
          List.filter_cons_of_neg (by simpa using hbk), ih]

theorem filter_most_common (k : Nat) (c : Dict Nat) :
    (most_common c).filter (fun p => decide (p.2 = k)) =
      c.filter (fun p => decide (p.2 = k)) := by
  rw [most_common]
  induction c with
  | nil => rfl
  | cons a c ih =>
    rw [List.insertionSort, filter_orderedInsert, ih]
    by_cases h : a.2 = k <;> simp [List.filter_cons, h]

/-! ### Claim C8 -/

/-- C8: the symptom distribution assigns every listed category the number
of grouping entries (distinct posts — the keys are duplicate-free) whose
confirmed-symptom set contains it; every category present in some set is
listed; the output is ordered by non-increasing count; and entries with
equal counts appear exactly in the counter's first-encounter order (the
filtered tie classes coincide with the unsorted counter's). -/
theorem symptom_distribution_spec (rows : List (String × String × String)) :
    (∀ s k, (s, k) ∈ print_symptom_distribution
        (load_annotations rows).post_to_symptoms →
      k = ((load_annotations rows).post_to_symptoms.filter
        (fun p => decide (s ∈ p.2))).length)
    ∧ (∀ p ∈ (load_annotations rows).post_to_symptoms, ∀ s ∈ p.2,
        ∃ k, (s, k) ∈ print_symptom_distribution
          (load_annotations rows).post_to_symptoms)
    ∧ (((load_annotations rows).post_to_symptoms.map Prod.fst).Nodup)
    ∧ List.Pairwise countGE (print_symptom_distribution
        (load_annotations rows).post_to_symptoms)
    ∧ (∀ k, (print_symptom_distribution
        (load_annotations rows).post_to_symptoms).filter
          (fun p => decide (p.2 = k)) =
        (buildCounter (load_annotations rows).post_to_symptoms).filter
          (fun p => decide (p.2 = k))) := by
  have hvals : ∀ p ∈ (load_annotations rows).post_to_symptoms, p.2.Nodup := by
    intro p hp
    rw [values_load_sym hp]
    exact nodup_symsOf_load rows p.1
  refine ⟨?_, ?_, keysNodup_load_sym rows, ?_, ?_⟩
  · intro s k hmem
    rw [print_symptom_distribution] at hmem
    have hc : (s, k) ∈ buildCounter (load_annotations rows).post_to_symptoms :=
      (List.perm_insertionSort countGE _).mem_iff.mp hmem
    have hfind := mem_dictFind?_of_nodup (keysNodup_buildCounter _) hc
    have := dLookup_buildCounter (load_annotations rows).post_to_symptoms s hvals
    rw [dLookup, hfind, Option.getD_some] at this
    exact this
  · intro p hp s hsp
    have hmemf : p ∈ (load_annotations rows).post_to_symptoms.filter
        (fun p => decide (s ∈ p.2)) :=
      List.mem_filter.mpr ⟨hp, by simpa using hsp⟩
    have hpos : 0 < ((load_annotations rows).post_to_symptoms.filter
        (fun p => decide (s ∈ p.2))).length :=
      List.length_pos.mpr (List.ne_nil_of_mem hmemf)
    have hl := dLookup_buildCounter (load_annotations rows).post_to_symptoms
      s hvals
    cases hfind : dictFind? (buildCounter
        (load_annotations rows).post_to_symptoms) s with
    | none =>
      rw [dLookup, hfind, Option.getD_none] at hl
      omega
    | some k =>
      refine ⟨k, ?_⟩
      rw [print_symptom_distribution]
      exact (List.perm_insertionSort countGE _).mem_iff.mpr
        (dictFind?_mem hfind)
  · rw [print_symptom_distribution, most_common]
    exact List.sorted_insertionSort countGE _
  · intro k
    rw [print_symptom_distribution, filter_most_common]

/-- C8 witness: on Scenario A's grouping, `DEPRESSED_MOOD` is listed with
post-coverage count 1, and the category `WORTHLESSNESS` of post `p2`
appears in the distribution. -/
theorem symptom_distribution_spec_witness :
    (1 : Nat) = ((load_annotations scenarioA_ann).post_to_symptoms.filter
        (fun p => decide ("DEPRESSED_MOOD" ∈ p.2))).length
    ∧ ∃ k, ("WORTHLESSNESS", k) ∈ print_symptom_distribution
        (load_annotations scenarioA_ann).post_to_symptoms :=
  ⟨(symptom_distribution_spec scenarioA_ann).1 "DEPRESSED_MOOD" 1 (by decide),
   (symptom_distribution_spec scenarioA_ann).2.1 ("p2", ["WORTHLESSNESS"])
     (by decide) "WORTHLESSNESS" (by decide)⟩

/-! ### Success and frame lemmas for the full pipeline -/

theorem except_ok_bind {α β : Type} (a : α) (f : α → Except String β) :
    (Except.ok a >>= f) = f a := rfl

theorem dictSet_ne_nil {β : Type} (d : Dict β) (k : String) (v : β) :
    dictSet d k v ≠ [] := by
  cases d with
  | nil => simp [dictSet]
  | cons p ps =>
    by_cases h : p.1 = k <;> simp [dictSet, h]

theorem load_full_posts_ne_nil {rows : List (String × String)}
    (h : rows ≠ []) : load_full_posts rows ≠ [] := by
  have haux : ∀ (rs : List (String × String)) (d : Dict String), d ≠ [] →
      rs.foldl (fun posts row => dictSet posts row.1 row.2) d ≠ [] := by
    intro rs
    induction rs with
    | nil => exact fun d hd => hd
    | cons r rs ih =>
      intro d hd
      rw [List.foldl_cons]
      exact ih _ (dictSet_ne_nil d r.1 r.2)
  cases rows with
  | nil => exact absurd rfl h
  | cons r rs =>
    rw [load_full_posts, List.foldl_cons]
    exact haux rs _ (dictSet_ne_nil [] r.1 r.2)

theorem mapM_lengths_ok (posts : Dict String) :
    ∀ ids : List String, (∀ q ∈ ids, ∃ t, dictFind? posts q = some t) →
      ∃ ls : List Nat,
        ids.mapM (fun pid =>
          match dictFind? posts pid with
          | some t => Except.ok (pySplit t).length
          | none => Except.error "KeyError") = Except.ok ls
        ∧ ls.length = ids.length := by
  intro ids
  induction ids with
  | nil => exact fun _ => ⟨[], rfl, rfl⟩
  | cons q ids ih =>
    intro hall
    obtain ⟨t, ht⟩ := hall q (List.mem_cons_self q ids)
    obtain ⟨ls, hls, hlen⟩ :=
      ih (fun r hr => hall r (List.mem_cons_of_mem _ hr))
    refine ⟨(pySplit t).length :: ls, ?_, by simp [hlen]⟩
    simp only [List.mapM_cons, ht, hls]
    rfl

theorem pyMedian_ok {l : List Nat} (h : ¬ l.length = 0) :
    ∃ v, pyMedian l = Except.ok v := by
  simp only [pyMedian, if_neg h]
  by_cases h2 : l.length % 2 = 1
  · rw [if_pos h2]; exact ⟨_, rfl⟩
  · rw [if_neg h2]; exact ⟨_, rfl⟩

theorem length_stats_ok (ids : List String) (posts : Dict String)
    (hne : ids ≠ []) (hall : ∀ q ∈ ids, ∃ t, dictFind? posts q = some t) :
    ∃ v, length_stats ids posts = Except.ok v := by
  obtain ⟨ls, hls, hlen⟩ := mapM_lengths_ok posts ids hall
  have hn : ¬ ids.length = 0 := fun h0 => hne (List.length_eq_zero.mp h0)
  have hlsne : ls ≠ [] := fun h0 => hn (by rw [← hlen, h0]; rfl)
  obtain ⟨x, xs, rfl⟩ : ∃ x xs, ls = x :: xs := by
    cases ls with
    | nil => exact absurd rfl hlsne
    | cons x xs => exact ⟨x, xs, rfl⟩
  have hln : ¬ (x :: xs).length = 0 := by simp
  obtain ⟨mv, hmv⟩ := pyMedian_ok hln
  refine ⟨((x :: xs), (((x :: xs).sum : Nat) : Rat) / ((ids.length : Nat) : Rat),
    xs.foldl Nat.min x, xs.foldl Nat.max x, mv), ?_⟩
  simp only [length_stats, hls, except_ok_bind, pyDiv, if_neg hn, pyMin,
    pyMax, hmv]

theorem print_statistics_ok (ids : List String) (posts : Dict String)
    (g : Groupings) (hne : ids ≠ [])
    (hall : ∀ q ∈ ids, ∃ t, dictFind? posts q = some t) :
    ∃ stats g', print_statistics ids posts g = Except.ok (stats, g') := by
  obtain ⟨v, hv⟩ := length_stats_ok ids posts hne hall
  exact ⟨_, _, by simp only [print_statistics, hv, Except.map]; rfl⟩

theorem print_statistics_snd (ids : List String) (posts : Dict String)
    (g : Groupings) (stats : Stats) (g' : Groupings)
    (h : print_statistics ids posts g = Except.ok (stats, g')) :
    g' = Groupings.mk
      (genSum ids (genSum ids g.post_to_symptoms []
        (fun s => if s.isEmpty then 1 else 0)).2 [] List.length).2
      (genSum ids g.post_to_all_annotations [] List.length).2 := by
  simp only [print_statistics] at h
  cases hls : length_stats ids posts with
  | error msg => rw [hls] at h; simp [Except.map] at h
  | ok ls =>
    rw [hls] at h
    simp only [Except.map, Except.ok.injEq, Prod.mk.injEq] at h
    exact h.2.symm

theorem main_model_map_fst (postRows : List (String × String))
    (annRows : List (String × String × String)) :
    (main_model postRows annRows).map Prod.fst =
      (print_statistics ((load_full_posts postRows).map Prod.fst)
        (load_full_posts postRows) (load_annotations annRows)).map
        Prod.fst := by
  cases h : print_statistics ((load_full_posts postRows).map Prod.fst)
      (load_full_posts postRows) (load_annotations annRows) with
  | error m => simp [main_model, h, Except.map]
  | ok r => simp [main_model, h, Except.map]

theorem print_statistics_stats_congr (ids : List String)
    (posts : Dict String) (g₁ g₂ : Groupings)
    (hs : ∀ q ∈ ids, dLookup g₁.post_to_symptoms q [] =
      dLookup g₂.post_to_symptoms q [])
    (ha : ∀ q ∈ ids, dLookup g₁.post_to_all_annotations q [] =
      dLookup g₂.post_to_all_annotations q []) :
    (print_statistics ids posts g₁).map Prod.fst =
      (print_statistics ids posts g₂).map Prod.fst := by
  have he : (genSum ids g₁.post_to_all_annotations [] List.length).1 =
      (genSum ids g₂.post_to_all_annotations [] List.length).1 := by
    rw [genSum_fst, genSum_fst]
    exact congrArg List.sum
      (List.map_congr_left (fun q hq => by rw [ha q hq]))
  have hhn : (genSum ids g₁.post_to_symptoms []
        (fun s => if s.isEmpty then 1 else 0)).1 =
      (genSum ids g₂.post_to_symptoms []
        (fun s => if s.isEmpty then 1 else 0)).1 := by
    rw [genSum_fst, genSum_fst]
    exact congrArg List.sum
      (List.map_congr_left (fun q hq => by rw [hs q hq]))
  have hst : (genSum ids (genSum ids g₁.post_to_symptoms []
        (fun s => if s.isEmpty then 1 else 0)).2 [] List.length).1 =
      (genSum ids (genSum ids g₂.post_to_symptoms []
        (fun s => if s.isEmpty then 1 else 0)).2 [] List.length).1 := by
    rw [genSum_fst, genSum_fst]
    refine congrArg List.sum (List.map_congr_left (fun q hq => ?_))
    rw [dLookup_genSum_snd, dLookup_genSum_snd, hs q hq]
  simp only [print_statistics]
  cases hls : length_stats ids posts with
  | error m => simp [Except.map]
  | ok ls =>
    simp only [Except.map]
    rw [he, hhn, hst]

theorem symsOf_load_filter (rows : List (String × String × String))
    (pid q : String) (h : ¬ q = pid) :
    symsOf (load_annotations
        (rows.filter (fun r => decide (¬ r.1 = pid)))) q =
      symsOf (load_annotations rows) q := by
  rw [symsOf_load, symsOf_load, List.filter_filter]
  have heq : rows.filter (fun r =>
      decide (r.1 = q ∧ r.2.2 = "1" ∧ r.2.1 ∈ DSM5_SYMPTOM_NAMES) &&
        decide (¬ r.1 = pid)) =
      rows.filter (fun r =>
        decide (r.1 = q ∧ r.2.2 = "1" ∧ r.2.1 ∈ DSM5_SYMPTOM_NAMES)) := by
    refine List.filter_congr ?_
    intro r hr
    by_cases hc : r.1 = q ∧ r.2.2 = "1" ∧ r.2.1 ∈ DSM5_SYMPTOM_NAMES
    · have hnp : ¬ r.1 = pid := by rw [hc.1]; exact h
      simp [hc, hnp, h]
    · simp [hc]
  rw [heq]

theorem explOf_load_filter (rows : List (String × String × String))
    (pid q : String) (h : ¬ q = pid) :
    explOf (load_annotations
        (rows.filter (fun r => decide (¬ r.1 = pid)))) q =
      explOf (load_annotations rows) q := by
  rw [explOf_load, explOf_load, List.filter_filter]
  have heq : rows.filter (fun r =>
      decide (r.1 = q ∧ (r.2.2 = "0" ∨ r.2.2 = "1")) &&
        decide (¬ r.1 = pid)) =
      rows.filter (fun r =>
        decide (r.1 = q ∧ (r.2.2 = "0" ∨ r.2.2 = "1"))) := by
    refine List.filter_congr ?_
    intro r hr
    by_cases hc : r.1 = q ∧ (r.2.2 = "0" ∨ r.2.2 = "1")
    · have hnp : ¬ r.1 = pid := by rw [hc.1]; exact h
      simp [hc, hnp, h]
    · simp [hc]
  rw [heq]

theorem filter_map_empty (s : String) (ks : List String) :
    (ks.map (fun k => (k, ([] : List String)))).filter
      (fun p => decide (s ∈ p.2)) = [] := by
  induction ks with
  | nil => rfl
  | cons k ks ih => simp [List.filter_cons, ih]

/-! ### Claim C10 -/

/-- C10: a status-`"1"`, taxonomy-valid annotation row whose post id is
absent from the post map still contributes to the symptom distribution —
the distribution lists its category with the count over all grouping
entries, that post's entry included — while contributing nothing to the
corpus statistics block, which only reads the groupings at the post map's
keys: the statistics are identical with all such rows removed.  No error
is raised: the pipeline succeeds on any nonempty post table. -/
theorem unknown_post_annotations (postRows : List (String × String))
    (annRows : List (String × String × String)) (pid s : String)
    (hrow : (pid, s, "1") ∈ annRows) (hs : s ∈ DSM5_SYMPTOM_NAMES)
    (hpid : dictFind? (load_full_posts postRows) pid = none)
    (hne : postRows ≠ []) :
    (∃ stats dist, main_model postRows annRows = Except.ok (stats, dist)
      ∧ ∃ k, (s, k) ∈ dist
        ∧ k = ((load_annotations annRows).post_to_symptoms.filter
            (fun p => decide (s ∈ p.2))).length
        ∧ ∃ v, (pid, v) ∈ (load_annotations annRows).post_to_symptoms.filter
            (fun p => decide (s ∈ p.2)))
    ∧ (main_model postRows annRows).map Prod.fst =
      (main_model postRows
        (annRows.filter (fun r => decide (¬ r.1 = pid)))).map Prod.fst := by
  have hpostsne : load_full_posts postRows ≠ [] := load_full_posts_ne_nil hne
  have hidsne : (load_full_posts postRows).map Prod.fst ≠ [] := by
    intro h0
    exact hpostsne (List.map_eq_nil_iff.mp h0)
  have hall : ∀ q ∈ (load_full_posts postRows).map Prod.fst,
      ∃ t, dictFind? (load_full_posts postRows) q = some t := by
    intro q hq
    cases hfind : dictFind? (load_full_posts postRows) q with
    | none =>
      rw [dictFind?_eq_none_iff] at hfind
      exact absurd hq hfind
    | some t => exact ⟨t, rfl⟩
  obtain ⟨stats0, g', hps⟩ := print_statistics_ok _ _
    (load_annotations annRows) hidsne hall
  have hmain : main_model postRows annRows =
      Except.ok (stats0,
        print_symptom_distribution g'.post_to_symptoms) := by
    simp only [main_model, hps, Except.map]
  have hpidids : pid ∉ (load_full_posts postRows).map Prod.fst :=
    (dictFind?_eq_none_iff _ _).mp hpid
  have hg' := print_statistics_snd _ _ _ _ _ hps
  obtain ⟨ks1, hks1⟩ := genSum_snd_append ([] : List String)
    (fun s => if s.isEmpty then 1 else 0)
    ((load_full_posts postRows).map Prod.fst)
    (load_annotations annRows).post_to_symptoms
  obtain ⟨ks2, hks2⟩ := genSum_snd_append ([] : List String) List.length
    ((load_full_posts postRows).map Prod.fst)
    (genSum ((load_full_posts postRows).map Prod.fst)
      (load_annotations annRows).post_to_symptoms []
      (fun s => if s.isEmpty then 1 else 0)).2
  have hsymdecomp : g'.post_to_symptoms =
      (load_annotations annRows).post_to_symptoms ++
        (ks1 ++ ks2).map (fun k => (k, ([] : List String))) := by
    rw [hg']
    show (genSum ((load_full_posts postRows).map Prod.fst)
      (genSum ((load_full_posts postRows).map Prod.fst)
        (load_annotations annRows).post_to_symptoms []
        (fun s => if s.isEmpty then 1 else 0)).2 [] List.length).2 = _
    rw [hks2, hks1, List.map_append, List.append_assoc]
  have hnd' : ∀ p ∈ g'.post_to_symptoms, p.2.Nodup := by
    intro p hp
    rw [hsymdecomp] at hp
    rcases List.mem_append.mp hp with hp1 | hp1
    · rw [values_load_sym hp1]
      exact nodup_symsOf_load annRows p.1
    · obtain ⟨k, _, rfl⟩ := List.mem_map.mp hp1
      exact List.nodup_nil
  have hfiltereq : g'.post_to_symptoms.filter (fun p => decide (s ∈ p.2)) =
      (load_annotations annRows).post_to_symptoms.filter
        (fun p => decide (s ∈ p.2)) := by
    rw [hsymdecomp, List.filter_append, filter_map_empty, List.append_nil]
  have hsmem : s ∈ symsOf (load_annotations annRows) pid :=
    (mem_symsOf_load annRows pid s).mpr ⟨hrow, hs⟩
  obtain ⟨l, hfindl, hsl⟩ : ∃ l,
      dictFind? (load_annotations annRows).post_to_symptoms pid = some l
      ∧ s ∈ l := by
    rw [symsOf, dLookup] at hsmem
    cases hf : dictFind? (load_annotations annRows).post_to_symptoms pid with
    | none => rw [hf] at hsmem; simp at hsmem
    | some l =>
      rw [hf] at hsmem
      exact ⟨l, rfl, by simpa using hsmem⟩
  have hpidmemf : (pid, l) ∈
      (load_annotations annRows).post_to_symptoms.filter
        (fun p => decide (s ∈ p.2)) :=
    List.mem_filter.mpr ⟨dictFind?_mem hfindl, by simpa using hsl⟩
  have hcount := dLookup_buildCounter g'.post_to_symptoms s hnd'
  rw [hfiltereq] at hcount
  have hpos : 0 < ((load_annotations annRows).post_to_symptoms.filter
      (fun p => decide (s ∈ p.2))).length :=
    List.length_pos.mpr (List.ne_nil_of_mem hpidmemf)
  constructor
  · refine ⟨stats0, print_symptom_distribution g'.post_to_symptoms,
      hmain, ?_⟩
    cases hbf : dictFind? (buildCounter g'.post_to_symptoms) s with
    | none =>
      rw [dLookup, hbf, Option.getD_none] at hcount
      omega
    | some k =>
      refine ⟨k, ?_, ?_, ⟨l, hpidmemf⟩⟩
      · rw [print_symptom_distribution]
        exact (List.perm_insertionSort countGE _).mem_iff.mpr
          (dictFind?_mem hbf)
      · rw [dLookup, hbf, Option.getD_some] at hcount
        exact hcount
  · rw [main_model_map_fst, main_model_map_fst]
    refine print_statistics_stats_congr _ _ _ _ ?_ ?_
    · intro q hq
      have hqpid : ¬ q = pid := fun he => hpidids (he ▸ hq)
      exact (symsOf_load_filter annRows pid q hqpid).symm
    · intro q hq
      have hqpid : ¬ q = pid := fun he => hpidids (he ▸ hq)
      exact (explOf_load_filter annRows pid q hqpid).symm

/-- C10 witness: a single annotation row for the unknown post id `"x"` with
a post table holding only `"p1"`. -/
theorem unknown_post_annotations_witness :
    (∃ stats dist, main_model [("p1", "a")] [("x", "DEPRESSED_MOOD", "1")] =
        Except.ok (stats, dist)
      ∧ ∃ k, ("DEPRESSED_MOOD", k) ∈ dist
        ∧ k = ((load_annotations
            [("x", "DEPRESSED_MOOD", "1")]).post_to_symptoms.filter
              (fun p => decide ("DEPRESSED_MOOD" ∈ p.2))).length
        ∧ ∃ v, ("x", v) ∈ (load_annotations
            [("x", "DEPRESSED_MOOD", "1")]).post_to_symptoms.filter
              (fun p => decide ("DEPRESSED_MOOD" ∈ p.2)))
    ∧ (main_model [("p1", "a")] [("x", "DEPRESSED_MOOD", "1")]).map
        Prod.fst =
      (main_model [("p1", "a")]
        ([("x", "DEPRESSED_MOOD", "1")].filter
          (fun r => decide (¬ r.1 = "x")))).map Prod.fst :=
  unknown_post_annotations [("p1", "a")] [("x", "DEPRESSED_MOOD", "1")]
    "x" "DEPRESSED_MOOD" (by decide) (by decide) (by decide) (by decide)

end RedSM5
